import Mathlib

/-!
Verification of the job-execution slice of the flynn controller
(`jobs.go`).  The Go code is shallowly embedded: pure helpers become Lean
functions, handlers become functions from an oracle of external-call
results to the list of observable events they perform (in program order,
including the deferred releases that Go runs at function exit).
-/

namespace FlynnJobs

/-- Errors surfaced through the `ResponseHelper`.  `notFound` is the
controller's `ErrNotFound`; `validation` is `ct.ValidationError{Field,
Message}`; `msg` is `errors.New(s)`; `wrapped` is `fmt.Errorf("<phase>:
%s", err)`. -/
inductive GoErr where
  | notFound
  | validation (field message : String)
  | msg (s : String)
  | wrapped (phase : String) (err : GoErr)
deriving DecidableEq

/-! ## parseJobID and connectHostMiddleware (jobs.go:124-150) -/

/-- Embedding of Go `strings.SplitN(s, "-", 2)` on the character list of
`s`: split at the first `'-'`, keeping the remainder (which may contain
further dashes) as the second segment; a string with no dash yields a
one-element list. -/
def splitN2 : List Char → List (List Char)
  | [] => [[]]
  | c :: cs =>
    if c = '-' then [[], cs]
    else
      match splitN2 cs with
      | [] => [[c]]
      | x :: rest => (c :: x) :: rest

/-- Embedding of `parseJobID` (jobs.go:124-130): reject unless the split
produced exactly two non-empty parts. -/
def parseJobID (jobsID : String) : String × String :=
  match splitN2 jobsID.data with
  | [a, b] => if a = [] ∨ b = [] then ("", "") else (String.mk a, String.mk b)
  | _ => ("", "")

/-- Observable events of the middleware/handler pipeline for kill/log
requests. -/
inductive MEv where
  | logParse (s : String)
  | respErr (e : GoErr)
  | dialHost (h : String)
  | stopJob (jobID : String)
  | closeHost
deriving DecidableEq

/-- Embedding of `connectHostMiddleware` (jobs.go:132-150) as the event
trace it produces: `dial` is the result of `cl.DialHost`, `inner` is the
trace of the wrapped handler, which receives the rewritten (local) job
ID.  `client.Close()` runs after the inner handler. -/
def connectHostMiddleware (jobsID : String) (dial : Except GoErr Unit)
    (inner : String → List MEv) : List MEv :=
  match parseJobID jobsID with
  | (hostID, jobID) =>
    if hostID = "" then [.logParse jobsID, .respErr .notFound]
    else
      match dial with
      | .error e => [.dialHost hostID, .respErr e]
      | .ok _ => .dialHost hostID :: (inner jobID ++ [.closeHost])

/-- Embedding of `killJob` (jobs.go:152-157): issue the stop command for
the (already rewritten) local job ID; propagate a failure unmodified. -/
def killJob (stop : Except GoErr Unit) (jobID : String) : List MEv :=
  match stop with
  | .error e => [.stopJob jobID, .respErr e]
  | .ok _ => [.stopJob jobID]

/-- Discriminator: is this middleware event a host dial? -/
def isDialM : MEv → Bool
  | .dialHost _ => true
  | _ => false

/-- Composite-ID strings rejected by `parseJobID`: no separator at all, or
an empty part on either side of the first `'-'`. -/
def MalformedJobID (s : String) : Prop :=
  ('-' ∉ s.data) ∨ (∃ r, s.data = '-' :: r) ∨ (∃ p, '-' ∉ p ∧ s.data = p ++ ['-'])

lemma splitN2_no_dash {l : List Char} (h : '-' ∉ l) : splitN2 l = [l] := by
  induction l with
  | nil => rfl
  | cons c cs ih =>
    have hc : c ≠ '-' := fun hc => h (hc ▸ List.mem_cons_self c cs)
    have hcs : '-' ∉ cs := fun hm => h (List.mem_cons_of_mem c hm)
    simp [splitN2, hc, ih hcs]

lemma splitN2_first_dash {p : List Char} (hp : '-' ∉ p) (r : List Char) :
    splitN2 (p ++ '-' :: r) = [p, r] := by
  induction p with
  | nil => simp [splitN2]
  | cons c cs ih =>
    have hc : c ≠ '-' := fun hc => hp (hc ▸ List.mem_cons_self c cs)
    have hcs : '-' ∉ cs := fun hm => hp (List.mem_cons_of_mem c hm)
    simp [splitN2, hc, ih hcs]

lemma parseJobID_malformed {s : String} (h : MalformedJobID s) :
    parseJobID s = ("", "") := by
  rcases h with h | ⟨r, hr⟩ | ⟨p, hp, hpr⟩
  · rw [parseJobID, splitN2_no_dash h]
  · rw [parseJobID, hr]
    simp [splitN2]
  · rw [parseJobID, hpr, splitN2_first_dash hp]
    simp

/-- C1: for every composite job ID `h ++ "-" ++ rest` with non-empty `h`
(containing no `'-'` itself, so that the shown separator is the first) and
non-empty `rest` (which may contain further dashes), `parseJobID` recovers
exactly `(h, rest)`; and for every malformed ID (no dash, or an empty part
on either side of the first dash) the middleware responds `NotFound` and
never dials any host. -/
theorem parseJobID_roundtrip_and_malformed_notFound :
    (∀ h rest : String, h ≠ "" → rest ≠ "" → '-' ∉ h.data →
      parseJobID (h ++ "-" ++ rest) = (h, rest))
    ∧ (∀ s : String, MalformedJobID s → ∀ d inner,
      connectHostMiddleware s d inner = [MEv.logParse s, MEv.respErr GoErr.notFound]
        ∧ List.countP isDialM (connectHostMiddleware s d inner) = 0) := by
  constructor
  · intro h rest hh hrest hdash
    have hd : (h ++ "-" ++ rest).data = h.data ++ '-' :: rest.data := by
      rw [String.data_append, String.data_append, List.append_assoc]
      rfl
    have hhd : h.data ≠ [] := fun hnil => hh (String.ext hnil)
    have hrd : rest.data ≠ [] := fun hnil => hrest (String.ext hnil)
    rw [parseJobID, hd, splitN2_first_dash hdash]
    simp [hhd, hrd]
  · intro s hs d inner
    have hp : parseJobID s = ("", "") := parseJobID_malformed hs
    constructor
    · simp [connectHostMiddleware, hp]
    · simp [connectHostMiddleware, hp, isDialM]

/-- Witness for C1 at concrete inputs: `"h1-job-1"` parses to
`("h1", "job-1")` and the malformed ID `"badid"` yields `NotFound` with no
dial even when a dial would succeed and the inner handler is `killJob`. -/
theorem parseJobID_roundtrip_and_malformed_notFound_witness :
    parseJobID ("h1" ++ "-" ++ "job-1") = ("h1", "job-1")
    ∧ (connectHostMiddleware "badid" (Except.ok ()) (killJob (Except.ok ()))
        = [MEv.logParse "badid", MEv.respErr GoErr.notFound]
      ∧ List.countP isDialM
          (connectHostMiddleware "badid" (Except.ok ()) (killJob (Except.ok ()))) = 0) :=
  ⟨parseJobID_roundtrip_and_malformed_notFound.1 "h1" "job-1" (by decide) (by decide)
      (by decide),
    parseJobID_roundtrip_and_malformed_notFound.2 "badid" (Or.inl (by decide))
      (Except.ok ()) (killJob (Except.ok ()))⟩

/-! ## SSE log writer (jobs.go:82-122) -/

/-- Embedding of `sseLogChunk` (jobs.go:105-108): the record serialized
for every frame, field order as in the Go struct. -/
structure sseLogChunk where
  Stream : String
  Data : String
deriving DecidableEq

/-- Lower-case hex digit, as produced by Go's JSON encoder. -/
def hexDig (n : Nat) : Char :=
  "0123456789abcdef".data.getD n '0'

/-- Escaping of one character by Go's `encoding/json` encoder (with its
default HTML escaping): quote, backslash, the named control escapes, the
HTML-significant characters and U+2028/U+2029 as `\uXXXX`, remaining
control characters as `\u00XX`, and everything else verbatim. -/
def escC (c : Char) : List Char :=
  if c = '\"' then ['\\', '\"']
  else if c = '\\' then ['\\', '\\']
  else if c = '\n' then ['\\', 'n']
  else if c = '\r' then ['\\', 'r']
  else if c = '\t' then ['\\', 't']
  else if c = '<' then ['\\', 'u', '0', '0', '3', 'c']
  else if c = '>' then ['\\', 'u', '0', '0', '3', 'e']
  else if c = '&' then ['\\', 'u', '0', '0', '2', '6']
  else if c = Char.ofNat 0x2028 then ['\\', 'u', '2', '0', '2', '8']
  else if c = Char.ofNat 0x2029 then ['\\', 'u', '2', '0', '2', '9']
  else if c.toNat < 32 then ['\\', 'u', '0', '0', hexDig (c.toNat / 16), hexDig (c.toNat % 16)]
  else [c]

def goEscape (l : List Char) : List Char :=
  (l.map escC).flatten

/-- Go JSON string literal for `s`. -/
def goQuote (s : String) : String :=
  String.mk ('\"' :: (goEscape s.data ++ ['\"']))

/-- Output of Go's `json.Encoder.Encode` on an `sseLogChunk`: the compact
object in struct field order followed by a newline. -/
def encodeChunkJSON (c : sseLogChunk) : String :=
  "\x7b\"stream\":" ++ goQuote c.Stream ++ ",\"data\":" ++ goQuote c.Data ++ "\x7d\n"

/-- Steps taken against the shared sink state by a stream-handle write;
`tid` identifies the calling task. -/
inductive MuxStep where
  | acquire (tid : Nat)
  | emit (tid : Nat) (s : String)
  | release (tid : Nat)
deriving DecidableEq

/-- Embedding of `sseLogStreamWriter` (jobs.go:100-103): a named handle
onto the shared `sseLogWriter` sink. -/
structure sseLogStreamWriter where
  s : String
deriving DecidableEq

/-- Embedding of `(*sseLogWriter).Stream` (jobs.go:96-98). -/
def sseStream (s : String) : sseLogStreamWriter :=
  ⟨s⟩

/-- Embedding of `(*sseLogStreamWriter).Write` (jobs.go:110-122) as the
step sequence it performs on the shared sink: take the mutex, write the
`"data: "` marker, the encoded record, a newline, release the mutex. -/
def sseLogStreamWriter.Write (w : sseLogStreamWriter) (tid : Nat) (p : String) : List MuxStep :=
  [.acquire tid, .emit tid "data: ",
    .emit tid (encodeChunkJSON { Stream := w.s, Data := p }), .emit tid "\n",
    .release tid]

/-- Bytes reaching the sink from a step sequence. -/
def writeOutput : List MuxStep → String
  | [] => ""
  | .emit _ s :: r => s ++ writeOutput r
  | _ :: r => writeOutput r

/-- Discriminator: an emit step of task `tid`. -/
def isEmitBy (tid : Nat) : MuxStep → Bool
  | .emit t _ => t == tid
  | _ => false

/-- One complete wire frame for chunk `p` on stream `s`. -/
def sseFrame (s p : String) : String :=
  "data: " ++ encodeChunkJSON { Stream := s, Data := p } ++ "\n"

/-! Decoding, used to show the emitted record really carries the stream
name and the chunk. -/

/-- Numeric value of one lower-case hex digit (the only kind `goEscape`
emits). -/
def hexVal (c : Char) : Option Nat :=
  if '0' ≤ c ∧ c ≤ '9' then some (c.toNat - '0'.toNat)
  else if 'a' ≤ c ∧ c ≤ 'f' then some (c.toNat - 'a'.toNat + 10)
  else none

/-- Resolve one escape sequence (everything after a `'\\'`): the decoded
character and the remainder. -/
def readEsc : List Char → Option (Char × List Char)
  | [] => none
  | d :: r2 =>
    if d = '\"' then some ('\"', r2)
    else if d = '\\' then some ('\\', r2)
    else if d = 'n' then some ('\n', r2)
    else if d = 'r' then some ('\r', r2)
    else if d = 't' then some ('\t', r2)
    else if d = 'u' then
      match r2 with
      | a :: b :: e :: f :: r3 =>
        match hexVal a, hexVal b, hexVal e, hexVal f with
        | some va, some vb, some ve, some vf =>
          some (Char.ofNat (((va * 16 + vb) * 16 + ve) * 16 + vf), r3)
        | _, _, _, _ => none
      | _ => none
    else none

lemma readEsc_length {r : List Char} {d : Char} {r2 : List Char}
    (h : readEsc r = some (d, r2)) : r2.length < r.length := by
  cases r with
  | nil => simp [readEsc] at h
  | cons d' r' =>
    simp only [readEsc] at h
    split_ifs at h
    · obtain ⟨-, rfl⟩ : '\"' = d ∧ r' = r2 := by simpa using h
      simp
    · obtain ⟨-, rfl⟩ : '\\' = d ∧ r' = r2 := by simpa using h
      simp
    · obtain ⟨-, rfl⟩ : '\n' = d ∧ r' = r2 := by simpa using h
      simp
    · obtain ⟨-, rfl⟩ : '\r' = d ∧ r' = r2 := by simpa using h
      simp
    · obtain ⟨-, rfl⟩ : '\t' = d ∧ r' = r2 := by simpa using h
      simp
    · split at h
      · split at h
        · obtain ⟨-, rfl⟩ : _ ∧ _ = r2 := by simpa using h
          simp only [List.length_cons]
          omega
        · simp at h
      · simp at h

/-- Undo `goEscape`. -/
def unescape : List Char → Option (List Char)
  | [] => some []
  | c :: r =>
    if c = '\\' then
      match h : readEsc r with
      | none => none
      | some (d, r2) => (unescape r2).map (fun l => d :: l)
    else (unescape r).map (fun l => c :: l)
termination_by l => l.length
decreasing_by
  · exact Nat.lt_succ_of_lt (readEsc_length h)
  · simp

/-- Scan a JSON string body up to its closing quote, returning the still
escaped body and everything after the quote. -/
def scanQuoted : List Char → Option (List Char × List Char)
  | [] => none
  | c :: r =>
    if c = '\"' then some ([], r)
    else if c = '\\' then
      match r with
      | [] => none
      | d :: r2 => (scanQuoted r2).map (fun pr => (c :: d :: pr.1, pr.2))
    else (scanQuoted r).map (fun pr => (c :: pr.1, pr.2))

/-- Match an exact literal, returning the remainder. -/
def dropLit : List Char → List Char → Option (List Char)
  | [], l => some l
  | c :: cs, d :: ds => if c = d then dropLit cs ds else none
  | _ :: _, [] => none

/-- Parse a JSON string literal: an opening quote, the escaped body, a
closing quote. -/
def parseQuoted (l : List Char) : Option (List Char × List Char) :=
  match l with
  | '\"' :: r => scanQuoted r
  | _ => none

/-- Parse one encoded `sseLogChunk` object (as emitted by
`encodeChunkJSON`), returning the decoded fields and the remainder. -/
def decodeChunk (l : List Char) : Option ((String × String) × List Char) :=
  match dropLit "\x7b\"stream\":".data l with
  | none => none
  | some r1 =>
    match parseQuoted r1 with
    | none => none
    | some (se, r2) =>
      match dropLit ",\"data\":".data r2 with
      | none => none
      | some r3 =>
        match parseQuoted r3 with
        | none => none
        | some (de, r4) =>
          match dropLit "\x7d\n".data r4 with
          | none => none
          | some r5 =>
            match unescape se, unescape de with
            | some su, some du => some ((String.mk su, String.mk du), r5)
            | _, _ => none

/-- Parse one complete SSE frame. -/
def decodeFrame (s : String) : Option (String × String) :=
  match dropLit "data: ".data s.data with
  | none => none
  | some r =>
    match decodeChunk r with
    | none => none
    | some (sp, rest) => if rest = ['\n'] then some sp else none

/-- Characters whose Go JSON escaping we decode again: everything at or
above U+0020 plus the named control escapes. -/
def GoodChar (c : Char) : Prop :=
  32 ≤ c.toNat ∨ c = '\n' ∨ c = '\r' ∨ c = '\t'

instance (c : Char) : Decidable (GoodChar c) := by
  unfold GoodChar
  infer_instance

def GoodString (s : String) : Prop :=
  ∀ c ∈ s.data, GoodChar c

instance (s : String) : Decidable (GoodString s) := by
  unfold GoodString
  infer_instance

lemma scanQuoted_quote (r : List Char) : scanQuoted ('\"' :: r) = some ([], r) := by
  cases r <;> simp [scanQuoted]

lemma scanQuoted_esc (d : Char) (t : List Char) :
    scanQuoted ('\\' :: d :: t) = (scanQuoted t).map (fun pr => ('\\' :: d :: pr.1, pr.2)) := by
  simp [scanQuoted]

lemma scanQuoted_plain (c : Char) (h1 : c ≠ '\"') (h2 : c ≠ '\\') (t : List Char) :
    scanQuoted (c :: t) = (scanQuoted t).map (fun pr => (c :: pr.1, pr.2)) := by
  cases t <;> simp [scanQuoted, h1, h2]

lemma unescape_plain (c : Char) (h : c ≠ '\\') (t : List Char) :
    unescape (c :: t) = (unescape t).map (fun l => c :: l) := by
  simp [unescape, h]

lemma unescape_esc {d : Char} {r2 : List Char} (r : List Char)
    (h : readEsc r = some (d, r2)) :
    unescape ('\\' :: r) = (unescape r2).map (fun l => d :: l) := by
  rw [unescape]
  rw [if_pos rfl]
  split
  · rename_i h'
    rw [h'] at h
    simp at h
  · rename_i d' r2' h'
    rw [h'] at h
    obtain ⟨rfl, rfl⟩ : d' = d ∧ r2' = r2 := by simpa using h
    rfl

lemma escC_plain (c : Char) (h1 : c ≠ '\"') (h2 : c ≠ '\\') (h3 : c ≠ '\n')
    (h4 : c ≠ '\r') (h5 : c ≠ '\t') (h6 : c ≠ '<') (h7 : c ≠ '>') (h8 : c ≠ '&')
    (h9 : c ≠ Char.ofNat 0x2028) (h10 : c ≠ Char.ofNat 0x2029)
    (h32 : ¬ c.toNat < 32) : escC c = [c] := by
  simp [escC, h1, h2, h3, h4, h5, h6, h7, h8, h9, h10, h32]

lemma scanQuoted_escC (c : Char) (hc : GoodChar c) (t : List Char) :
    scanQuoted (escC c ++ t) = (scanQuoted t).map (fun pr => (escC c ++ pr.1, pr.2)) := by
  by_cases h1 : c = '\"'
  · subst h1
    rw [show escC '\"' ++ t = '\\' :: '\"' :: t from rfl, scanQuoted_esc]
    cases scanQuoted t <;> rfl
  by_cases h2 : c = '\\'
  · subst h2
    rw [show escC '\\' ++ t = '\\' :: '\\' :: t from rfl, scanQuoted_esc]
    cases scanQuoted t <;> rfl
  by_cases h3 : c = '\n'
  · subst h3
    rw [show escC '\n' ++ t = '\\' :: 'n' :: t from rfl, scanQuoted_esc]
    cases scanQuoted t <;> rfl
  by_cases h4 : c = '\r'
  · subst h4
    rw [show escC '\r' ++ t = '\\' :: 'r' :: t from rfl, scanQuoted_esc]
    cases scanQuoted t <;> rfl
  by_cases h5 : c = '\t'
  · subst h5
    rw [show escC '\t' ++ t = '\\' :: 't' :: t from rfl, scanQuoted_esc]
    cases scanQuoted t <;> rfl
  by_cases h6 : c = '<'
  · subst h6
    rw [show escC '<' ++ t = '\\' :: 'u' :: '0' :: '0' :: '3' :: 'c' :: t from rfl,
      scanQuoted_esc, scanQuoted_plain '0' (by decide) (by decide),
      scanQuoted_plain '0' (by decide) (by decide),
      scanQuoted_plain '3' (by decide) (by decide),
      scanQuoted_plain 'c' (by decide) (by decide)]
    cases scanQuoted t <;> rfl
  by_cases h7 : c = '>'
  · subst h7
    rw [show escC '>' ++ t = '\\' :: 'u' :: '0' :: '0' :: '3' :: 'e' :: t from rfl,
      scanQuoted_esc, scanQuoted_plain '0' (by decide) (by decide),
      scanQuoted_plain '0' (by decide) (by decide),
      scanQuoted_plain '3' (by decide) (by decide),
      scanQuoted_plain 'e' (by decide) (by decide)]
    cases scanQuoted t <;> rfl
  by_cases h8 : c = '&'
  · subst h8
    rw [show escC '&' ++ t = '\\' :: 'u' :: '0' :: '0' :: '2' :: '6' :: t from rfl,
      scanQuoted_esc, scanQuoted_plain '0' (by decide) (by decide),
      scanQuoted_plain '0' (by decide) (by decide),
      scanQuoted_plain '2' (by decide) (by decide),
      scanQuoted_plain '6' (by decide) (by decide)]
    cases scanQuoted t <;> rfl
  by_cases h9 : c = Char.ofNat 0x2028
  · subst h9
    rw [show escC (Char.ofNat 0x2028) ++ t = '\\' :: 'u' :: '2' :: '0' :: '2' :: '8' :: t from rfl,
      scanQuoted_esc, scanQuoted_plain '2' (by decide) (by decide),
      scanQuoted_plain '0' (by decide) (by decide),
      scanQuoted_plain '2' (by decide) (by decide),
      scanQuoted_plain '8' (by decide) (by decide)]
    cases scanQuoted t <;> rfl
  by_cases h10 : c = Char.ofNat 0x2029
  · subst h10
    rw [show escC (Char.ofNat 0x2029) ++ t = '\\' :: 'u' :: '2' :: '0' :: '2' :: '9' :: t from rfl,
      scanQuoted_esc, scanQuoted_plain '2' (by decide) (by decide),
      scanQuoted_plain '0' (by decide) (by decide),
      scanQuoted_plain '2' (by decide) (by decide),
      scanQuoted_plain '9' (by decide) (by decide)]
    cases scanQuoted t <;> rfl
  have h32 : ¬ c.toNat < 32 := by
    rcases hc with h | h | h | h
    · omega
    all_goals simp_all
  rw [escC_plain c h1 h2 h3 h4 h5 h6 h7 h8 h9 h10 h32]
  simp only [List.singleton_append]
  rw [scanQuoted_plain c h1 h2]

lemma unescape_escC (c : Char) (hc : GoodChar c) (t : List Char) :
    unescape (escC c ++ t) = (unescape t).map (fun l => c :: l) := by
  by_cases h1 : c = '\"'
  · subst h1
    rw [show escC '\"' ++ t = '\\' :: '\"' :: t from rfl,
      unescape_esc ('\"' :: t)
        (show readEsc ('\"' :: t) = some ('\"', t) by simp [readEsc])]
  by_cases h2 : c = '\\'
  · subst h2
    rw [show escC '\\' ++ t = '\\' :: '\\' :: t from rfl,
      unescape_esc ('\\' :: t)
        (show readEsc ('\\' :: t) = some ('\\', t) by simp [readEsc])]
  by_cases h3 : c = '\n'
  · subst h3
    rw [show escC '\n' ++ t = '\\' :: 'n' :: t from rfl,
      unescape_esc ('n' :: t)
        (show readEsc ('n' :: t) = some ('\n', t) by simp [readEsc])]
  by_cases h4 : c = '\r'
  · subst h4
    rw [show escC '\r' ++ t = '\\' :: 'r' :: t from rfl,
      unescape_esc ('r' :: t)
        (show readEsc ('r' :: t) = some ('\r', t) by simp [readEsc])]
  by_cases h5 : c = '\t'
  · subst h5
    rw [show escC '\t' ++ t = '\\' :: 't' :: t from rfl,
      unescape_esc ('t' :: t)
        (show readEsc ('t' :: t) = some ('\t', t) by simp [readEsc])]
  by_cases h6 : c = '<'
  · subst h6
    rw [show escC '<' ++ t = '\\' :: 'u' :: '0' :: '0' :: '3' :: 'c' :: t from rfl,
      unescape_esc ('u' :: '0' :: '0' :: '3' :: 'c' :: t)
        (show readEsc ('u' :: '0' :: '0' :: '3' :: 'c' :: t) = some ('<', t) by
          simp [readEsc, hexVal])]
  by_cases h7 : c = '>'
  · subst h7
    rw [show escC '>' ++ t = '\\' :: 'u' :: '0' :: '0' :: '3' :: 'e' :: t from rfl,
      unescape_esc ('u' :: '0' :: '0' :: '3' :: 'e' :: t)
        (show readEsc ('u' :: '0' :: '0' :: '3' :: 'e' :: t) = some ('>', t) by
          simp [readEsc, hexVal])]
  by_cases h8 : c = '&'
  · subst h8
    rw [show escC '&' ++ t = '\\' :: 'u' :: '0' :: '0' :: '2' :: '6' :: t from rfl,
      unescape_esc ('u' :: '0' :: '0' :: '2' :: '6' :: t)
        (show readEsc ('u' :: '0' :: '0' :: '2' :: '6' :: t) = some ('&', t) by
          simp [readEsc, hexVal])]
  by_cases h9 : c = Char.ofNat 0x2028
  · subst h9
    rw [show escC (Char.ofNat 0x2028) ++ t = '\\' :: 'u' :: '2' :: '0' :: '2' :: '8' :: t from rfl,
      unescape_esc ('u' :: '2' :: '0' :: '2' :: '8' :: t)
        (show readEsc ('u' :: '2' :: '0' :: '2' :: '8' :: t) = some (Char.ofNat 0x2028, t) by
          simp [readEsc, hexVal])]
  by_cases h10 : c = Char.ofNat 0x2029
  · subst h10
    rw [show escC (Char.ofNat 0x2029) ++ t = '\\' :: 'u' :: '2' :: '0' :: '2' :: '9' :: t from rfl,
      unescape_esc ('u' :: '2' :: '0' :: '2' :: '9' :: t)
        (show readEsc ('u' :: '2' :: '0' :: '2' :: '9' :: t) = some (Char.ofNat 0x2029, t) by
          simp [readEsc, hexVal])]
  have h32 : ¬ c.toNat < 32 := by
    rcases hc with h | h | h | h
    · omega
    all_goals simp_all
  rw [escC_plain c h1 h2 h3 h4 h5 h6 h7 h8 h9 h10 h32]
  simp only [List.singleton_append]
  rw [unescape_plain c h2]

lemma goEscape_cons (c : Char) (l : List Char) :
    goEscape (c :: l) = escC c ++ goEscape l := by
  simp [goEscape]

lemma unescape_goEscape (s : List Char) (hs : ∀ c ∈ s, GoodChar c) :
    unescape (goEscape s) = some s := by
  induction s with
  | nil => simp [goEscape, unescape]
  | cons c cs ih =>
    have hc : GoodChar c := hs c (List.mem_cons_self c cs)
    have hcs : ∀ c ∈ cs, GoodChar c := fun d hd => hs d (List.mem_cons_of_mem c hd)
    rw [goEscape_cons, unescape_escC c hc, ih hcs]
    rfl

lemma scanQuoted_goEscape (s : List Char) (hs : ∀ c ∈ s, GoodChar c) (rest : List Char) :
    scanQuoted (goEscape s ++ '\"' :: rest) = some (goEscape s, rest) := by
  induction s with
  | nil => simp [goEscape, scanQuoted_quote]
  | cons c cs ih =>
    have hc : GoodChar c := hs c (List.mem_cons_self c cs)
    have hcs : ∀ c ∈ cs, GoodChar c := fun d hd => hs d (List.mem_cons_of_mem c hd)
    rw [goEscape_cons, List.append_assoc, scanQuoted_escC c hc, ih hcs]
    simp

lemma dropLit_append (lit l : List Char) : dropLit lit (lit ++ l) = some l := by
  induction lit with
  | nil => rfl
  | cons c cs ih => simp [dropLit, ih]

lemma decodeChunk_encode (s p : String) (hs : GoodString s) (hp : GoodString p)
    (rest : List Char) :
    decodeChunk ((encodeChunkJSON { Stream := s, Data := p }).data ++ rest)
      = some ((s, p), rest) := by
  have harg : (encodeChunkJSON { Stream := s, Data := p }).data ++ rest
      = "\x7b\"stream\":".data ++ ('\"' :: (goEscape s.data ++ '\"' ::
        (",\"data\":".data ++ ('\"' :: (goEscape p.data ++ '\"' ::
          ("\x7d\n".data ++ rest)))))) := by
    simp [encodeChunkJSON, goQuote, String.data_append]
  simp only [decodeChunk, harg, dropLit_append, parseQuoted,
    scanQuoted_goEscape s.data hs, scanQuoted_goEscape p.data hp,
    unescape_goEscape s.data hs, unescape_goEscape p.data hp]

lemma decodeFrame_sseFrame (s p : String) (hs : GoodString s) (hp : GoodString p) :
    decodeFrame (sseFrame s p) = some (s, p) := by
  have harg : (sseFrame s p).data
      = "data: ".data ++ ((encodeChunkJSON { Stream := s, Data := p }).data ++ ['\n']) := by
    simp [sseFrame, String.data_append]
  simp only [decodeFrame, harg, dropLit_append, decodeChunk_encode s p hs hp]
  simp

/-- C3: a single `Write` on a stream handle named `s` performs, while
holding the shared lock (its step sequence is acquire, then only its own
sink writes, then release), exactly one complete frame: the literal
`"data: "`, one JSON record whose `stream` field is `s` and whose `data`
field is the chunk, and a line terminator — a pure function of that call's
chunk alone, so nothing is buffered or re-chunked across calls; decoding
the emitted bytes recovers exactly `(s, chunk)`. -/
theorem sse_write_emits_one_locked_frame (w : sseLogStreamWriter) (tid : Nat) (p : String) :
    (∃ mid, sseLogStreamWriter.Write w tid p
        = MuxStep.acquire tid :: (mid ++ [MuxStep.release tid])
      ∧ ∀ st ∈ mid, isEmitBy tid st = true)
    ∧ writeOutput (sseLogStreamWriter.Write w tid p) = sseFrame w.s p
    ∧ sseFrame w.s p = "data: " ++ encodeChunkJSON { Stream := w.s, Data := p } ++ "\n"
    ∧ (GoodString w.s → GoodString p →
        decodeFrame (writeOutput (sseLogStreamWriter.Write w tid p)) = some (w.s, p)) := by
  have hout : writeOutput (sseLogStreamWriter.Write w tid p) = sseFrame w.s p := by
    apply String.ext
    simp [writeOutput, sseLogStreamWriter.Write, sseFrame, String.data_append]
  refine ⟨⟨[MuxStep.emit tid "data: ",
      MuxStep.emit tid (encodeChunkJSON { Stream := w.s, Data := p }),
      MuxStep.emit tid "\n"], rfl, ?_⟩, hout, rfl, ?_⟩
  · intro st hst
    simp only [List.mem_cons, List.not_mem_nil, or_false] at hst
    rcases hst with rfl | rfl | rfl <;> simp [isEmitBy]
  · intro hs hp
    rw [hout]
    exact decodeFrame_sseFrame w.s p hs hp

/-- Witness for C3 at chunk `"hello"` on stream `"stdout"`. -/
theorem sse_write_emits_one_locked_frame_witness :
    GoodString "stdout" ∧ GoodString "hello"
    ∧ decodeFrame (writeOutput (sseLogStreamWriter.Write ⟨"stdout"⟩ 0 "hello"))
        = some ("stdout", "hello") :=
  ⟨by decide, by decide,
    (sse_write_emits_one_locked_frame ⟨"stdout"⟩ 0 "hello").2.2.2 (by decide) (by decide)⟩

/-! ## Cluster data model and jobList (jobs.go:22-54) -/

/-- Modelled from the spec: the target application (external metadata
record, `ct.App`); only its ID is read by this slice. -/
structure App where
  ID : String
deriving DecidableEq

/-- Embedding of the `docker.Config` fields set or read by this slice. -/
structure DockerConfig where
  Cmd : List String := []
  Env : List String := []
  Image : String := ""
  AttachStdout : Bool := false
  AttachStderr : Bool := false
  Tty : Bool := false
  AttachStdin : Bool := false
  StdinOnce : Bool := false
  OpenStdin : Bool := false
deriving DecidableEq

/-- Embedding of `host.Job`: local ID, annotation map, runtime config. -/
structure HostJob where
  ID : String
  Attributes : List (String × String) := []
  Config : DockerConfig := {}
deriving DecidableEq

/-- Embedding of `host.Host`: an ID owning jobs. -/
structure Host where
  ID : String
  Jobs : List HostJob := []
deriving DecidableEq

/-- Go map lookup on the attribute map: the zero value `""` when the key
is absent. -/
def lookupAttr (attrs : List (String × String)) (k : String) : String :=
  match attrs.find? (fun kv => kv.1 == k) with
  | some kv => kv.2
  | none => ""

/-- Modelled from the spec: the `ct.Job` summary (external types package):
composite ID, type, releaseID, and cmd (zero value: empty list). -/
structure CtJob where
  ID : String
  Type' : String := ""
  ReleaseID : String := ""
  Cmd : List String := []
deriving DecidableEq

/-- The summary built for one job inside `jobList` (jobs.go:41-48): `Cmd`
is populated only when the `type` annotation is empty. -/
def jobSummary (h : Host) (j : HostJob) : CtJob :=
  { ID := h.ID ++ "-" ++ j.ID,
    Type' := lookupAttr j.Attributes "flynn-controller.type",
    ReleaseID := lookupAttr j.Attributes "flynn-controller.release",
    Cmd := if lookupAttr j.Attributes "flynn-controller.type" = "" then j.Config.Cmd else [] }

/-- Embedding of `jobList` (jobs.go:28-54): nested loops over the host
snapshot, skipping jobs of other applications, appending a summary for
each job of `app`. -/
def jobList (app : App) (hosts : List Host) : List CtJob :=
  hosts.foldl (fun jobs h =>
    h.Jobs.foldl (fun jobs j =>
      if lookupAttr j.Attributes "flynn-controller.app" ≠ app.ID then jobs
      else jobs ++ [jobSummary h j]) jobs) []

lemma jobList_inner (app : App) (h : Host) (acc : List CtJob) :
    h.Jobs.foldl (fun jobs j =>
      if lookupAttr j.Attributes "flynn-controller.app" ≠ app.ID then jobs
      else jobs ++ [jobSummary h j]) acc
    = acc ++ (h.Jobs.filter
        (fun j => lookupAttr j.Attributes "flynn-controller.app" == app.ID)).map
          (jobSummary h) := by
  induction h.Jobs generalizing acc with
  | nil => simp
  | cons j js ih =>
    by_cases hj : lookupAttr j.Attributes "flynn-controller.app" = app.ID
    · rw [List.foldl_cons, if_neg (not_not_intro hj), ih]
      simp [List.filter_cons, hj]
    · rw [List.foldl_cons, if_pos hj, ih]
      simp [List.filter_cons, hj]

lemma jobList_eq (app : App) (hosts : List Host) :
    jobList app hosts
      = (hosts.map (fun h => (h.Jobs.filter
          (fun j => lookupAttr j.Attributes "flynn-controller.app" == app.ID)).map
            (jobSummary h))).flatten := by
  rw [jobList]
  suffices hgen : ∀ acc : List CtJob,
      hosts.foldl (fun jobs h =>
        h.Jobs.foldl (fun jobs j =>
          if lookupAttr j.Attributes "flynn-controller.app" ≠ app.ID then jobs
          else jobs ++ [jobSummary h j]) jobs) acc
      = acc ++ (hosts.map (fun h => (h.Jobs.filter
          (fun j => lookupAttr j.Attributes "flynn-controller.app" == app.ID)).map
            (jobSummary h))).flatten by
    simpa using hgen []
  induction hosts with
  | nil => simp
  | cons h hs ih =>
    intro acc
    rw [List.foldl_cons, jobList_inner, ih]
    simp [List.append_assoc]

lemma mem_jobList_iff (app : App) (hosts : List Host) (x : CtJob) :
    x ∈ jobList app hosts ↔
      ∃ h ∈ hosts, ∃ j ∈ h.Jobs,
        lookupAttr j.Attributes "flynn-controller.app" = app.ID
        ∧ x = { ID := h.ID ++ "-" ++ j.ID,
                Type' := lookupAttr j.Attributes "flynn-controller.type",
                ReleaseID := lookupAttr j.Attributes "flynn-controller.release",
                Cmd := if lookupAttr j.Attributes "flynn-controller.type" = ""
                  then j.Config.Cmd else [] } := by
  rw [jobList_eq]
  constructor
  · intro hx
    obtain ⟨l, hl, hxl⟩ := List.mem_flatten.mp hx
    obtain ⟨h, hh, rfl⟩ := List.mem_map.mp hl
    obtain ⟨j, hjf, rfl⟩ := List.mem_map.mp hxl
    obtain ⟨hj, hja⟩ := List.mem_filter.mp hjf
    exact ⟨h, hh, j, hj, by simpa using hja, rfl⟩
  · rintro ⟨h, hh, j, hj, hja, rfl⟩
    refine List.mem_flatten.mpr ⟨_, List.mem_map.mpr ⟨h, hh, rfl⟩, ?_⟩
    exact List.mem_map.mpr ⟨j, List.mem_filter.mpr ⟨hj, by simpa using hja⟩, rfl⟩

/-- C9: a summary is in the listing for `app` exactly when some host of
the snapshot has a job whose `app` annotation equals `app.ID`, and the
summary projects that job as: composite ID `hostID ++ "-" ++ jobID`, the
`type` annotation, the `release` annotation as `ReleaseID`, and — only
when the `type` annotation is empty — the job's configured `Cmd`; jobs of
other applications are excluded. -/
theorem jobList_characterization (app : App) (hosts : List Host) (x : CtJob) :
    x ∈ jobList app hosts ↔
      ∃ h ∈ hosts, ∃ j ∈ h.Jobs,
        lookupAttr j.Attributes "flynn-controller.app" = app.ID
        ∧ x = { ID := h.ID ++ "-" ++ j.ID,
                Type' := lookupAttr j.Attributes "flynn-controller.type",
                ReleaseID := lookupAttr j.Attributes "flynn-controller.release",
                Cmd := if lookupAttr j.Attributes "flynn-controller.type" = ""
                  then j.Config.Cmd else [] } :=
  mem_jobList_iff app hosts x

/-! ## runJob (jobs.go:159-283) -/

/-- Content-negotiation marker selecting an interactive attach. -/
def attachMarker : String := "application/vnd.flynn.attach"

/-- Embedding of Go `strings.Contains sub s`: `sub` occurs inside `s`. -/
def goContains (s sub : String) : Bool :=
  decide (sub.data <:+: s.data)

/-- Modelled from the spec: a release (external metadata record,
`ct.Release`): its ID, its artifact reference and its base environment. -/
structure Release where
  ID : String
  ArtifactID : String
  Env : List (String × String) := []
deriving DecidableEq

/-- Modelled from the spec: an artifact (external metadata record,
`ct.Artifact`) carrying the image URI. -/
structure Artifact where
  ID : String
  URI : String
deriving DecidableEq

/-- Modelled from the spec: the new-job request body (`ct.NewJob`):
releaseID, optional command, environment overrides, TTY flag and terminal
geometry. -/
structure NewJob where
  ReleaseID : String
  Cmd : List String := []
  Env : List (String × String) := []
  TTY : Bool := false
  Lines : Nat := 0
  Columns : Nat := 0
deriving DecidableEq

/-- Modelled from the spec: `utils.FormatEnv` — the base release
environment overlaid by request-level overrides, formatted `k=v`. -/
def formatEnv (base over : List (String × String)) : List String :=
  ((base.filter (fun kv => over.find? (fun kv2 => kv2.1 == kv.1) = none)) ++ over).map
    (fun kv => kv.1 ++ "=" ++ kv.2)

/-- The job record built by `runJob` (jobs.go:183-204): fresh local ID,
exactly the `app` and `release` annotations, stdout/stderr capture always
on, stdin flags only for interactive dispatches, TTY passed through. -/
def mkHostJob (app : App) (release : Release) (newJob : NewJob) (image : String)
    (attach : Bool) (jobID : String) : HostJob :=
  { ID := jobID,
    Attributes := [("flynn-controller.app", app.ID),
      ("flynn-controller.release", release.ID)],
    Config := { Cmd := newJob.Cmd, Env := formatEnv release.Env newJob.Env,
                Image := image, AttachStdout := true, AttachStderr := true,
                Tty := newJob.TTY, AttachStdin := attach, StdinOnce := attach,
                OpenStdin := attach } }

/-- Observable events of the dispatch handler, in program order (the
deferred `Close` calls appear where Go runs them: at return, LIFO). -/
inductive REv where
  | getRelease (releaseID : String)
  | getArtifact (artifactID : String)
  | parseImage (uri : String)
  | listHosts
  | dialHost (h : String)
  | attachReq (jobID : String)
  | addJobs (h : String) (j : HostJob)
  | attachWait
  | hijack
  | panicked
  | spawnProxy
  | recvDone
  | closeConn
  | closeAttach
  | closeClient
  | respError (e : GoErr)
  | respJSON (j : CtJob)
deriving DecidableEq

/-- Results of the external calls `runJob` makes, in the order it makes
them (repositories, image parser, cluster client, attach channel,
transport hijack) plus the generated local job ID. -/
structure RunOracle where
  release : Except GoErr Release
  artifact : Except GoErr Artifact
  image : Except GoErr String
  hosts : Except GoErr (List Host)
  dial : Except GoErr Unit
  attachRes : Except GoErr Unit
  addJobsRes : Except GoErr Unit
  attachWaitRes : Except GoErr Unit
  hijackRes : Except GoErr Unit
  newJobID : String

/-- Embedding of `runJob` (jobs.go:159-283) as the event trace it
produces.  Control flow follows the source: resolve release, artifact,
image; build the job; list hosts and take the first iterated key; if the
caller asked for an interactive attach, dial the host and attach before
`AddJobs`; surface failures via the response helper with the source's
phase annotations; run deferred closes at every return. -/
def runJob (app : App) (newJob : NewJob) (accept : String) (o : RunOracle) : List REv :=
  match o.release with
  | .error e => [.getRelease newJob.ReleaseID, .respError e]
  | .ok release =>
  match o.artifact with
  | .error e => [.getRelease newJob.ReleaseID, .getArtifact release.ArtifactID,
      .respError e]
  | .ok artifact =>
  match o.image with
  | .error _ => [.getRelease newJob.ReleaseID, .getArtifact release.ArtifactID,
      .parseImage artifact.URI, .respError (.validation "artifact.uri" "is invalid")]
  | .ok image =>
  let attach := goContains accept attachMarker
  let job := mkHostJob app release newJob image attach o.newJobID
  let hd : List REv := [.getRelease newJob.ReleaseID, .getArtifact release.ArtifactID,
    .parseImage artifact.URI, .listHosts]
  match o.hosts with
  | .error e => hd ++ [.respError e]
  | .ok hosts =>
  let hostID := ((hosts.head?).map Host.ID).getD ""
  if hostID = "" then hd ++ [.respError (.msg "no hosts found")]
  else if attach then
    match o.dial with
    | .error e => hd ++ [.dialHost hostID, .respError (.wrapped "lorne connect failed" e)]
    | .ok _ =>
    match o.attachRes with
    | .error e => hd ++ [.dialHost hostID, .attachReq job.ID,
        .respError (.wrapped "attach failed" e), .closeClient]
    | .ok _ =>
    match o.addJobsRes with
    | .error e => hd ++ [.dialHost hostID, .attachReq job.ID, .addJobs hostID job,
        .respError (.wrapped "schedule failed" e), .closeAttach, .closeClient]
    | .ok _ =>
    match o.attachWaitRes with
    | .error e => hd ++ [.dialHost hostID, .attachReq job.ID, .addJobs hostID job,
        .attachWait, .respError (.wrapped "attach wait failed" e), .closeAttach,
        .closeClient]
    | .ok _ =>
    match o.hijackRes with
    | .error _ => hd ++ [.dialHost hostID, .attachReq job.ID, .addJobs hostID job,
        .attachWait, .hijack, .panicked, .closeAttach, .closeClient]
    | .ok _ => hd ++ [.dialHost hostID, .attachReq job.ID, .addJobs hostID job,
        .attachWait, .hijack, .spawnProxy, .recvDone, .recvDone, .closeConn,
        .closeAttach, .closeClient]
  else
    match o.addJobsRes with
    | .error e => hd ++ [.addJobs hostID job, .respError (.wrapped "schedule failed" e)]
    | .ok _ => hd ++ [.addJobs hostID job,
        .respJSON { ID := hostID ++ "-" ++ job.ID, Type' := "",
                    ReleaseID := newJob.ReleaseID, Cmd := newJob.Cmd }]

def isAttachReq : REv → Bool
  | .attachReq _ => true
  | _ => false

def isAddJobs : REv → Bool
  | .addJobs _ _ => true
  | _ => false

def isDialHost : REv → Bool
  | .dialHost _ => true
  | _ => false

def isListHosts : REv → Bool
  | .listHosts => true
  | _ => false

def isCloseAttach : REv → Bool
  | .closeAttach => true
  | _ => false

def isCloseClient : REv → Bool
  | .closeClient => true
  | _ => false

def isRespError : REv → Bool
  | .respError _ => true
  | _ => false

def isRespValidation : REv → Bool
  | .respError (.validation _ _) => true
  | _ => false

/-- Index of the first element satisfying `p`. -/
def firstIdx (p : α → Bool) : List α → Option Nat
  | [] => none
  | a :: l => if p a then some 0 else (firstIdx p l).map (fun n => n + 1)

/-- C2: for every interactive dispatch (the request accepts the attach
marker), the attach to the selected host is issued strictly before the job
is submitted through `AddJobs`; and if establishing the attach fails, the
request aborts with the `attach failed` error (closing the dial) and
`AddJobs` is never called. -/
theorem runJob_attach_before_submit (app : App) (nj : NewJob) (accept : String)
    (o : RunOracle) (hm : goContains accept attachMarker = true) :
    (∀ e, o.attachRes = .error e →
      List.countP isAddJobs (runJob app nj accept o) = 0)
    ∧ (∀ e rel art img h0 hrest, o.release = .ok rel → o.artifact = .ok art →
        o.image = .ok img → o.hosts = .ok (h0 :: hrest) → h0.ID ≠ "" →
        o.dial = .ok () → o.attachRes = .error e →
        runJob app nj accept o
          = [.getRelease nj.ReleaseID, .getArtifact rel.ArtifactID,
             .parseImage art.URI, .listHosts, .dialHost h0.ID,
             .attachReq o.newJobID, .respError (.wrapped "attach failed" e),
             .closeClient])
    ∧ (∀ i, firstIdx isAddJobs (runJob app nj accept o) = some i →
        ∃ k, firstIdx isAttachReq (runJob app nj accept o) = some k ∧ k < i) := by
  obtain ⟨orel, oart, oimg, ohosts, odial, oatt, oadd, owait, ohij, ojid⟩ := o
  refine ⟨?_, ?_, ?_⟩
  · intro e he
    cases he
    rcases orel with e' | rel
    · simp [runJob, isAddJobs]
    rcases oart with e' | art
    · simp [runJob, isAddJobs]
    rcases oimg with e' | img
    · simp [runJob, isAddJobs]
    rcases ohosts with e' | hs
    · simp [runJob, isAddJobs]
    rcases hs with - | ⟨h0, hrest⟩
    · simp [runJob, isAddJobs]
    by_cases hID : h0.ID = ""
    · simp [runJob, isAddJobs, hID]
    rcases odial with e' | -
    · simp [runJob, isAddJobs, hID, hm]
    · simp [runJob, isAddJobs, hID, hm]
  · intro e rel art img h0 hrest h1 h2 h3 h4 h5 h6 h7
    cases h1
    cases h2
    cases h3
    cases h4
    cases h6
    cases h7
    simp [runJob, hm, h5, mkHostJob]
  · rcases orel with e' | rel
    · intro i hi
      simp [runJob, firstIdx, isAddJobs] at hi
    rcases oart with e' | art
    · intro i hi
      simp [runJob, firstIdx, isAddJobs] at hi
    rcases oimg with e' | img
    · intro i hi
      simp [runJob, firstIdx, isAddJobs] at hi
    rcases ohosts with e' | hs
    · intro i hi
      simp [runJob, firstIdx, isAddJobs] at hi
    rcases hs with - | ⟨h0, hrest⟩
    · intro i hi
      simp [runJob, firstIdx, isAddJobs] at hi
    by_cases hID : h0.ID = ""
    · intro i hi
      simp [runJob, firstIdx, isAddJobs, hID] at hi
    rcases odial with e' | -
    · intro i hi
      simp [runJob, firstIdx, isAddJobs, hID, hm] at hi
    rcases oatt with e' | -
    · intro i hi
      simp [runJob, firstIdx, isAddJobs, isAttachReq, hID, hm] at hi
    rcases oadd with e' | -
    · intro i hi
      simp [runJob, firstIdx, isAddJobs, isAttachReq, hID, hm] at hi ⊢
      omega
    rcases owait with e' | -
    · intro i hi
      simp [runJob, firstIdx, isAddJobs, isAttachReq, hID, hm] at hi ⊢
      omega
    rcases ohij with e' | -
    · intro i hi
      simp [runJob, firstIdx, isAddJobs, isAttachReq, hID, hm] at hi ⊢
      omega
    · intro i hi
      simp [runJob, firstIdx, isAddJobs, isAttachReq, hID, hm] at hi ⊢
      omega

/-- Witness for C2 at a concrete interactive dispatch whose attach fails:
no `AddJobs` event is emitted. -/
theorem runJob_attach_before_submit_witness :
    List.countP isAddJobs (runJob ⟨"app1"⟩ { ReleaseID := "rel1" } attachMarker
      { release := .ok ⟨"rel1", "art1", []⟩, artifact := .ok ⟨"art1", "docker://x"⟩,
        image := .ok "x", hosts := .ok [⟨"h1", []⟩], dial := .ok (),
        attachRes := .error (.msg "boom"), addJobsRes := .ok (),
        attachWaitRes := .ok (), hijackRes := .ok (), newJobID := "j1" }) = 0 :=
  (runJob_attach_before_submit ⟨"app1"⟩ { ReleaseID := "rel1" } attachMarker
      { release := .ok ⟨"rel1", "art1", []⟩, artifact := .ok ⟨"art1", "docker://x"⟩,
        image := .ok "x", hosts := .ok [⟨"h1", []⟩], dial := .ok (),
        attachRes := .error (.msg "boom"), addJobsRes := .ok (),
        attachWaitRes := .ok (), hijackRes := .ok (), newJobID := "j1" }
      (by decide)).1 (.msg "boom") rfl

/-- C6: a run-job request against an empty host-directory snapshot fails
with the no-hosts error (the spec's `NoHostsAvailable` kind, `errors.New
("no hosts found")` in the source) and attempts neither an attach nor a
job submission nor even a host dial. -/
theorem runJob_no_hosts (app : App) (nj : NewJob) (accept : String) (o : RunOracle)
    (rel : Release) (art : Artifact) (img : String)
    (h1 : o.release = .ok rel) (h2 : o.artifact = .ok art) (h3 : o.image = .ok img)
    (h4 : o.hosts = .ok []) :
    runJob app nj accept o
      = [.getRelease nj.ReleaseID, .getArtifact rel.ArtifactID, .parseImage art.URI,
         .listHosts, .respError (.msg "no hosts found")]
    ∧ List.countP isAttachReq (runJob app nj accept o) = 0
    ∧ List.countP isAddJobs (runJob app nj accept o) = 0
    ∧ List.countP isDialHost (runJob app nj accept o) = 0 := by
  obtain ⟨orel, oart, oimg, ohosts, odial, oatt, oadd, owait, ohij, ojid⟩ := o
  cases h1
  cases h2
  cases h3
  cases h4
  refine ⟨?_, ?_, ?_, ?_⟩ <;>
    simp [runJob, isAttachReq, isAddJobs, isDialHost]

/-- Witness for C6 at a concrete request and an empty snapshot. -/
theorem runJob_no_hosts_witness :
    runJob ⟨"app1"⟩ { ReleaseID := "rel1" } ""
      { release := .ok ⟨"rel1", "art1", []⟩, artifact := .ok ⟨"art1", "docker://x"⟩,
        image := .ok "x", hosts := .ok [], dial := .ok (), attachRes := .ok (),
        addJobsRes := .ok (), attachWaitRes := .ok (), hijackRes := .ok (),
        newJobID := "j1" }
      = [.getRelease "rel1", .getArtifact "art1", .parseImage "docker://x",
         .listHosts, .respError (.msg "no hosts found")]
    ∧ List.countP isAttachReq (runJob ⟨"app1"⟩ { ReleaseID := "rel1" } ""
      { release := .ok ⟨"rel1", "art1", []⟩, artifact := .ok ⟨"art1", "docker://x"⟩,
        image := .ok "x", hosts := .ok [], dial := .ok (), attachRes := .ok (),
        addJobsRes := .ok (), attachWaitRes := .ok (), hijackRes := .ok (),
        newJobID := "j1" }) = 0
    ∧ List.countP isAddJobs (runJob ⟨"app1"⟩ { ReleaseID := "rel1" } ""
      { release := .ok ⟨"rel1", "art1", []⟩, artifact := .ok ⟨"art1", "docker://x"⟩,
        image := .ok "x", hosts := .ok [], dial := .ok (), attachRes := .ok (),
        addJobsRes := .ok (), attachWaitRes := .ok (), hijackRes := .ok (),
        newJobID := "j1" }) = 0
    ∧ List.countP isDialHost (runJob ⟨"app1"⟩ { ReleaseID := "rel1" } ""
      { release := .ok ⟨"rel1", "art1", []⟩, artifact := .ok ⟨"art1", "docker://x"⟩,
        image := .ok "x", hosts := .ok [], dial := .ok (), attachRes := .ok (),
        addJobsRes := .ok (), attachWaitRes := .ok (), hijackRes := .ok (),
        newJobID := "j1" }) = 0 :=
  runJob_no_hosts ⟨"app1"⟩ { ReleaseID := "rel1" } ""
    { release := .ok ⟨"rel1", "art1", []⟩, artifact := .ok ⟨"art1", "docker://x"⟩,
      image := .ok "x", hosts := .ok [], dial := .ok (), attachRes := .ok (),
      addJobsRes := .ok (), attachWaitRes := .ok (), hijackRes := .ok (),
      newJobID := "j1" }
    ⟨"rel1", "art1", []⟩ ⟨"art1", "docker://x"⟩ "x" rfl rfl rfl rfl

/-- C7 (amended): every resolution failure aborts the request before any
host is contacted (no `listHosts`, no dial); the release and artifact
repository failures are propagated to the caller unchanged, and only the
image-URI parse failure is reported as a `ValidationError` naming the
field `artifact.uri`. -/
theorem runJob_resolution_failures (app : App) (nj : NewJob) (accept : String)
    (o : RunOracle) :
    (∀ e, o.release = .error e →
      runJob app nj accept o = [.getRelease nj.ReleaseID, .respError e]
      ∧ List.countP isListHosts (runJob app nj accept o) = 0
      ∧ List.countP isDialHost (runJob app nj accept o) = 0)
    ∧ (∀ rel e, o.release = .ok rel → o.artifact = .error e →
      runJob app nj accept o
        = [.getRelease nj.ReleaseID, .getArtifact rel.ArtifactID, .respError e]
      ∧ List.countP isListHosts (runJob app nj accept o) = 0
      ∧ List.countP isDialHost (runJob app nj accept o) = 0)
    ∧ (∀ rel art e, o.release = .ok rel → o.artifact = .ok art →
      o.image = .error e →
      runJob app nj accept o
        = [.getRelease nj.ReleaseID, .getArtifact rel.ArtifactID,
           .parseImage art.URI, .respError (.validation "artifact.uri" "is invalid")]
      ∧ List.countP isListHosts (runJob app nj accept o) = 0
      ∧ List.countP isDialHost (runJob app nj accept o) = 0) := by
  obtain ⟨orel, oart, oimg, ohosts, odial, oatt, oadd, owait, ohij, ojid⟩ := o
  refine ⟨?_, ?_, ?_⟩
  · intro e he
    cases he
    refine ⟨rfl, ?_, ?_⟩ <;> simp [runJob, isListHosts, isDialHost]
  · intro rel e h1 h2
    cases h1
    cases h2
    refine ⟨rfl, ?_, ?_⟩ <;> simp [runJob, isListHosts, isDialHost]
  · intro rel art e h1 h2 h3
    cases h1
    cases h2
    cases h3
    refine ⟨rfl, ?_, ?_⟩ <;> simp [runJob, isListHosts, isDialHost]

/-- Witness for C7 (amended) at concrete failing oracles. -/
theorem runJob_resolution_failures_witness :
    runJob ⟨"app1"⟩ { ReleaseID := "missing" } ""
      { release := .error .notFound, artifact := .error .notFound,
        image := .error (.msg "bad"), hosts := .ok [], dial := .ok (),
        attachRes := .ok (), addJobsRes := .ok (), attachWaitRes := .ok (),
        hijackRes := .ok (), newJobID := "j1" }
      = [.getRelease "missing", .respError .notFound]
    ∧ List.countP isListHosts (runJob ⟨"app1"⟩ { ReleaseID := "missing" } ""
      { release := .error .notFound, artifact := .error .notFound,
        image := .error (.msg "bad"), hosts := .ok [], dial := .ok (),
        attachRes := .ok (), addJobsRes := .ok (), attachWaitRes := .ok (),
        hijackRes := .ok (), newJobID := "j1" }) = 0
    ∧ List.countP isDialHost (runJob ⟨"app1"⟩ { ReleaseID := "missing" } ""
      { release := .error .notFound, artifact := .error .notFound,
        image := .error (.msg "bad"), hosts := .ok [], dial := .ok (),
        attachRes := .ok (), addJobsRes := .ok (), attachWaitRes := .ok (),
        hijackRes := .ok (), newJobID := "j1" }) = 0 :=
  (runJob_resolution_failures ⟨"app1"⟩ { ReleaseID := "missing" } ""
    { release := .error .notFound, artifact := .error .notFound,
      image := .error (.msg "bad"), hosts := .ok [], dial := .ok (),
      attachRes := .ok (), addJobsRes := .ok (), attachWaitRes := .ok (),
      hijackRes := .ok (), newJobID := "j1" }).1 .notFound rfl

/-- Counterexample to C7 as stated: when the release repository reports
the (spec §7) `NotFound` error for an absent release, `runJob` surfaces
exactly that error unchanged — the response carries no `ValidationError`
naming a field. -/
theorem runJob_release_failure_is_not_validation :
    List.countP isRespValidation (runJob ⟨"app1"⟩ { ReleaseID := "missing" } ""
      { release := .error .notFound, artifact := .error .notFound,
        image := .error (.msg "bad"), hosts := .ok [], dial := .ok (),
        attachRes := .ok (), addJobsRes := .ok (), attachWaitRes := .ok (),
        hijackRes := .ok (), newJobID := "j1" }) = 0
    ∧ REv.respError GoErr.notFound ∈ runJob ⟨"app1"⟩ { ReleaseID := "missing" } ""
      { release := .error .notFound, artifact := .error .notFound,
        image := .error (.msg "bad"), hosts := .ok [], dial := .ok (),
        attachRes := .ok (), addJobsRes := .ok (), attachWaitRes := .ok (),
        hijackRes := .ok (), newJobID := "j1" }
    ∧ List.countP isRespError (runJob ⟨"app1"⟩ { ReleaseID := "missing" } ""
      { release := .error .notFound, artifact := .error .notFound,
        image := .error (.msg "bad"), hosts := .ok [], dial := .ok (),
        attachRes := .ok (), addJobsRes := .ok (), attachWaitRes := .ok (),
        hijackRes := .ok (), newJobID := "j1" }) = 1 := by
  refine ⟨?_, ?_, ?_⟩ <;> decide

/-- Concrete interactive dispatch whose `AddJobs` fails after the attach
channel was already opened. -/
def scheduleFailOracle : RunOracle :=
  { release := .ok ⟨"rel1", "art1", []⟩, artifact := .ok ⟨"art1", "docker://x"⟩,
    image := .ok "x", hosts := .ok [⟨"h1", []⟩], dial := .ok (),
    attachRes := .ok (), addJobsRes := .error (.msg "host down"),
    attachWaitRes := .ok (), hijackRes := .ok (), newJobID := "j1" }

/-- C5 (amended): when `AddJobs` fails after the attach session was
opened, the handler reports the error annotated `schedule failed`, and the
attach channel and the per-operation host dial are each closed exactly
once by the deferred releases, which run after the error is reported and
before the handler returns — nothing is left dangling. -/
theorem runJob_schedule_failure_teardown (app : App) (nj : NewJob) (accept : String)
    (o : RunOracle) (rel : Release) (art : Artifact) (img : String) (h0 : Host)
    (hrest : List Host) (e : GoErr) (hm : goContains accept attachMarker = true)
    (h1 : o.release = .ok rel) (h2 : o.artifact = .ok art) (h3 : o.image = .ok img)
    (h4 : o.hosts = .ok (h0 :: hrest)) (h5 : h0.ID ≠ "") (h6 : o.dial = .ok ())
    (h7 : o.attachRes = .ok ()) (h8 : o.addJobsRes = .error e) :
    runJob app nj accept o
      = [.getRelease nj.ReleaseID, .getArtifact rel.ArtifactID, .parseImage art.URI,
         .listHosts, .dialHost h0.ID, .attachReq o.newJobID,
         .addJobs h0.ID (mkHostJob app rel nj img true o.newJobID),
         .respError (.wrapped "schedule failed" e), .closeAttach, .closeClient]
    ∧ List.countP isCloseAttach (runJob app nj accept o) = 1
    ∧ List.countP isCloseClient (runJob app nj accept o) = 1
    ∧ (∃ i j k, firstIdx isRespError (runJob app nj accept o) = some i
        ∧ firstIdx isCloseAttach (runJob app nj accept o) = some j
        ∧ firstIdx isCloseClient (runJob app nj accept o) = some k
        ∧ i < j ∧ j < k) := by
  obtain ⟨orel, oart, oimg, ohosts, odial, oatt, oadd, owait, ohij, ojid⟩ := o
  cases h1
  cases h2
  cases h3
  cases h4
  cases h6
  cases h7
  cases h8
  refine ⟨?_, ?_, ?_, ?_⟩
  · simp [runJob, hm, h5, mkHostJob]
  · simp [runJob, hm, h5, isCloseAttach]
  · simp [runJob, hm, h5, isCloseClient]
  · refine ⟨7, 8, 9, ?_, ?_, ?_, ?_, ?_⟩ <;>
      simp [runJob, hm, h5, firstIdx, isRespError, isCloseAttach, isCloseClient]

/-- Witness for C5 (amended) at the concrete failing dispatch. -/
theorem runJob_schedule_failure_teardown_witness :
    runJob ⟨"app1"⟩ { ReleaseID := "rel1" } attachMarker scheduleFailOracle
      = [.getRelease "rel1", .getArtifact "art1", .parseImage "docker://x",
         .listHosts, .dialHost "h1", .attachReq "j1",
         .addJobs "h1" (mkHostJob ⟨"app1"⟩ ⟨"rel1", "art1", []⟩
           { ReleaseID := "rel1" } "x" true "j1"),
         .respError (.wrapped "schedule failed" (.msg "host down")),
         .closeAttach, .closeClient]
    ∧ List.countP isCloseAttach
        (runJob ⟨"app1"⟩ { ReleaseID := "rel1" } attachMarker scheduleFailOracle) = 1
    ∧ List.countP isCloseClient
        (runJob ⟨"app1"⟩ { ReleaseID := "rel1" } attachMarker scheduleFailOracle) = 1
    ∧ (∃ i j k, firstIdx isRespError
          (runJob ⟨"app1"⟩ { ReleaseID := "rel1" } attachMarker scheduleFailOracle) = some i
        ∧ firstIdx isCloseAttach
            (runJob ⟨"app1"⟩ { ReleaseID := "rel1" } attachMarker scheduleFailOracle) = some j
        ∧ firstIdx isCloseClient
            (runJob ⟨"app1"⟩ { ReleaseID := "rel1" } attachMarker scheduleFailOracle) = some k
        ∧ i < j ∧ j < k) :=
  runJob_schedule_failure_teardown ⟨"app1"⟩ { ReleaseID := "rel1" } attachMarker
    scheduleFailOracle ⟨"rel1", "art1", []⟩ ⟨"art1", "docker://x"⟩ "x" ⟨"h1", []⟩ []
    (.msg "host down") (by decide) rfl rfl rfl rfl (by decide) rfl rfl rfl

/-- Counterexample to C5 as stated: at the concrete failing dispatch the
`schedule failed` error is surfaced through the response helper at event
index 7, strictly before the deferred closes of the attach channel (index
8) and the dial (index 9) — the closes do not happen before the error is
surfaced. -/
theorem runJob_schedule_failure_closes_after_error :
    firstIdx isRespError
        (runJob ⟨"app1"⟩ { ReleaseID := "rel1" } attachMarker scheduleFailOracle)
      = some 7
    ∧ firstIdx isCloseAttach
        (runJob ⟨"app1"⟩ { ReleaseID := "rel1" } attachMarker scheduleFailOracle)
      = some 8
    ∧ firstIdx isCloseClient
        (runJob ⟨"app1"⟩ { ReleaseID := "rel1" } attachMarker scheduleFailOracle)
      = some 9
    ∧ ¬ (∃ i j, firstIdx isCloseAttach
          (runJob ⟨"app1"⟩ { ReleaseID := "rel1" } attachMarker scheduleFailOracle)
            = some i
        ∧ firstIdx isRespError
            (runJob ⟨"app1"⟩ { ReleaseID := "rel1" } attachMarker scheduleFailOracle)
            = some j
        ∧ i < j) := by
  refine ⟨?_, ?_, ?_, ?_⟩
  · decide
  · decide
  · decide
  · rintro ⟨i, j, hi, hj, hij⟩
    have hi8 : i = 8 := by
      have h8 : some i = some 8 := by rw [← hi]; decide
      simpa using h8
    have hj7 : j = 7 := by
      have h7 : some j = some 7 := by rw [← hj]; decide
      simpa using h7
    omega

/-- C10: every job record built by the dispatcher carries exactly the
`flynn-controller.app` and `flynn-controller.release` attributes and no
`flynn-controller.type` attribute; consequently a job dispatched by
`runJob` (the record handed to `AddJobs` is exactly this one) that later
appears in a host snapshot is listed by `jobList` for the same application
with an empty `Type` and with `Cmd` populated from the job's configured
command. -/
theorem mkHostJob_attrs_and_list_roundtrip (app : App) (rel : Release) (nj : NewJob)
    (img : String) (attach : Bool) (jid : String) :
    (mkHostJob app rel nj img attach jid).Attributes
      = [("flynn-controller.app", app.ID), ("flynn-controller.release", rel.ID)]
    ∧ "flynn-controller.type"
        ∉ ((mkHostJob app rel nj img attach jid).Attributes.map Prod.fst)
    ∧ lookupAttr (mkHostJob app rel nj img attach jid).Attributes
        "flynn-controller.type" = ""
    ∧ (∀ hosts h, h ∈ hosts → mkHostJob app rel nj img attach jid ∈ h.Jobs →
        jobSummary h (mkHostJob app rel nj img attach jid) ∈ jobList app hosts
        ∧ (jobSummary h (mkHostJob app rel nj img attach jid)).Type' = ""
        ∧ (jobSummary h (mkHostJob app rel nj img attach jid)).Cmd = nj.Cmd)
    ∧ (∀ accept o h0 hrest art, o.release = .ok rel → o.artifact = .ok art →
        o.image = .ok img → o.hosts = .ok (h0 :: hrest) → h0.ID ≠ "" →
        o.dial = .ok () → o.attachRes = .ok () →
        goContains accept attachMarker = attach → o.newJobID = jid →
        REv.addJobs h0.ID (mkHostJob app rel nj img attach jid)
          ∈ runJob app nj accept o) := by
  have htype : lookupAttr (mkHostJob app rel nj img attach jid).Attributes
      "flynn-controller.type" = "" := by
    simp [mkHostJob, lookupAttr, List.find?]
  have happ : lookupAttr (mkHostJob app rel nj img attach jid).Attributes
      "flynn-controller.app" = app.ID := by
    simp [mkHostJob, lookupAttr, List.find?]
  refine ⟨rfl, by simp [mkHostJob], htype, ?_, ?_⟩
  · intro hosts h hh hj
    refine ⟨?_, ?_, ?_⟩
    · exact (mem_jobList_iff app hosts _).mpr ⟨h, hh, _, hj, happ, rfl⟩
    · simp [jobSummary, htype]
    · simp only [jobSummary, htype]
      simp [mkHostJob]
  · intro accept o h0 hrest art h1 h2 h3 h4 h5 h6 h7 hacc hjid
    obtain ⟨orel, oart, oimg, ohosts, odial, oatt, oadd, owait, ohij, ojid⟩ := o
    cases h1
    cases h2
    cases h3
    cases h4
    cases h6
    cases h7
    cases hjid
    cases attach with
    | true =>
      rcases oadd with e' | -
      · simp [runJob, hacc, h5]
      rcases owait with e' | -
      · simp [runJob, hacc, h5]
      rcases ohij with e' | -
      · simp [runJob, hacc, h5]
      · simp [runJob, hacc, h5]
    | false =>
      rcases oadd with e' | -
      · simp [runJob, hacc, h5]
      · simp [runJob, hacc, h5]

/-- Witness for C10 at a concrete dispatched job sitting in a one-host
snapshot, plus a concrete non-interactive dispatch emitting that job. -/
theorem mkHostJob_attrs_and_list_roundtrip_witness :
    (jobSummary ⟨"h1", [mkHostJob ⟨"a"⟩ ⟨"r", "ar", []⟩ { ReleaseID := "r" } "x" false "j"]⟩
        (mkHostJob ⟨"a"⟩ ⟨"r", "ar", []⟩ { ReleaseID := "r" } "x" false "j")
      ∈ jobList ⟨"a"⟩
          [⟨"h1", [mkHostJob ⟨"a"⟩ ⟨"r", "ar", []⟩ { ReleaseID := "r" } "x" false "j"]⟩]
      ∧ (jobSummary ⟨"h1", [mkHostJob ⟨"a"⟩ ⟨"r", "ar", []⟩ { ReleaseID := "r" } "x" false "j"]⟩
          (mkHostJob ⟨"a"⟩ ⟨"r", "ar", []⟩ { ReleaseID := "r" } "x" false "j")).Type' = ""
      ∧ (jobSummary ⟨"h1", [mkHostJob ⟨"a"⟩ ⟨"r", "ar", []⟩ { ReleaseID := "r" } "x" false "j"]⟩
          (mkHostJob ⟨"a"⟩ ⟨"r", "ar", []⟩ { ReleaseID := "r" } "x" false "j")).Cmd
          = NewJob.Cmd { ReleaseID := "r" })
    ∧ REv.addJobs "h1" (mkHostJob ⟨"a"⟩ ⟨"r", "ar", []⟩ { ReleaseID := "r" } "x" false "j")
        ∈ runJob ⟨"a"⟩ { ReleaseID := "r" } ""
          { release := .ok ⟨"r", "ar", []⟩, artifact := .ok ⟨"ar", "u"⟩,
            image := .ok "x", hosts := .ok [⟨"h1", []⟩], dial := .ok (),
            attachRes := .ok (), addJobsRes := .ok (), attachWaitRes := .ok (),
            hijackRes := .ok (), newJobID := "j" } :=
  ⟨(mkHostJob_attrs_and_list_roundtrip ⟨"a"⟩ ⟨"r", "ar", []⟩ { ReleaseID := "r" } "x"
      false "j").2.2.2.1
      [⟨"h1", [mkHostJob ⟨"a"⟩ ⟨"r", "ar", []⟩ { ReleaseID := "r" } "x" false "j"]⟩]
      ⟨"h1", [mkHostJob ⟨"a"⟩ ⟨"r", "ar", []⟩ { ReleaseID := "r" } "x" false "j"]⟩
      (by decide) (by decide),
    (mkHostJob_attrs_and_list_roundtrip ⟨"a"⟩ ⟨"r", "ar", []⟩ { ReleaseID := "r" } "x"
      false "j").2.2.2.2 ""
      { release := .ok ⟨"r", "ar", []⟩, artifact := .ok ⟨"ar", "u"⟩,
        image := .ok "x", hosts := .ok [⟨"h1", []⟩], dial := .ok (),
        attachRes := .ok (), addJobsRes := .ok (), attachWaitRes := .ok (),
        hijackRes := .ok (), newJobID := "j" }
      ⟨"h1", []⟩ [] ⟨"ar", "u"⟩ rfl rfl rfl rfl (by decide) rfl rfl (by decide) rfl⟩

/-! ## jobLog (jobs.go:56-80) -/

/-- The two demultiplexed sub-streams. -/
inductive StreamName where
  | stdout
  | stderr
deriving DecidableEq

def streamNameStr : StreamName → String
  | .stdout => "stdout"
  | .stderr => "stderr"

/-- Attach flags requested by `jobLog` (jobs.go:57-63). -/
inductive AttachFlag where
  | flagStdout
  | flagStderr
  | flagLogs
  | flagStream
deriving DecidableEq

def logAttachFlags (tail : Bool) : List AttachFlag :=
  [.flagStdout, .flagStderr, .flagLogs] ++ (if tail then [.flagStream] else [])

/-- External-call results for a log request: the attach either fails or
yields the channel's content as labeled chunks in arrival order. -/
structure LogOracle where
  attach : Except GoErr (List (StreamName × String))

inductive LEv where
  | attachJob (flags : List AttachFlag)
  | respErr (e : GoErr)
  | setEventStreamCT
  | closeStream
deriving DecidableEq

def sseMediaType : String := "text/event-stream"

/-- The literal terminal record written after the channel ends
(jobs.go:76). -/
def eofMarker : String := "event: eof\ndata: \x7b\x7d\n\n"

/-- Modelled from the spec: `demultiplex.Copy` (external package) routes
every chunk of the multiplexed channel to the handle named after its
stream, preserving chunk boundaries; composed with the SSE writer each
chunk becomes exactly one frame, in channel order. -/
def sseFrames (ch : List (StreamName × String)) : String :=
  (ch.map (fun c => sseFrame (streamNameStr c.1) c.2)).foldr (fun a b => a ++ b) ""

/-- Raw mode: `io.Copy` forwards the interleaved bytes unframed. -/
def rawBytes (ch : List (StreamName × String)) : String :=
  (ch.map (fun c => c.2)).foldr (fun a b => a ++ b) ""

/-- Embedding of `jobLog` (jobs.go:56-80): attach (with the live-stream
flag only when tailing); on failure surface the error; otherwise branch on
the accepted representation, and in event-stream mode write the frames
followed by the literal eof record.  Returns (events, response body). -/
def jobLog (tail : Bool) (accept : String) (o : LogOracle) : List LEv × String :=
  match o.attach with
  | .error e => ([.attachJob (logAttachFlags tail), .respErr e], "")
  | .ok ch =>
    if goContains accept sseMediaType then
      ([.attachJob (logAttachFlags tail), .setEventStreamCT, .closeStream],
        sseFrames ch ++ eofMarker)
    else
      ([.attachJob (logAttachFlags tail), .closeStream], rawBytes ch)

/-- C8: for every event-stream log request whose attach channel ends
naturally, the response body is the per-chunk frames followed by exactly
the literal `event: eof` record and nothing after it. -/
theorem jobLog_eventstream_eof_terminated (tail : Bool) (accept : String)
    (o : LogOracle) (ch : List (StreamName × String)) (hok : o.attach = .ok ch)
    (hacc : goContains accept sseMediaType = true) :
    (jobLog tail accept o).2 = sseFrames ch ++ eofMarker
    ∧ eofMarker = "event: eof\ndata: \x7b\x7d\n\n" := by
  obtain ⟨oatt⟩ := o
  cases hok
  exact ⟨by simp [jobLog, hacc], rfl⟩

/-- Witness for C8: a channel yielding `"hello"` on stdout then ending
produces exactly one stdout frame followed by the terminal record. -/
theorem jobLog_eventstream_eof_terminated_witness :
    (jobLog false "text/event-stream" ⟨.ok [(.stdout, "hello")]⟩).2
      = "data: \x7b\"stream\":\"stdout\",\"data\":\"hello\"\x7d\n\n"
        ++ "event: eof\ndata: \x7b\x7d\n\n" := by
  have h := jobLog_eventstream_eof_terminated false "text/event-stream"
    ⟨.ok [(.stdout, "hello")]⟩ [(.stdout, "hello")] rfl (by decide)
  rw [h.1]
  decide

/-! ## Duplex proxy (jobs.go:262-275)

The two copy goroutines and the joining handler are separate processes;
an execution is any interleaving of their step sequences that respects the
semantics of the buffered `done` channel (a receive cannot overtake the
matching send). -/

/-- Resources closed during an interactive session's teardown. -/
inductive Dest where
  | conn
  | attachConn
  | client
deriving DecidableEq

/-- Steps of the proxy phase. -/
inductive PEv where
  | copyDone (d : Dest)
  | closeWrite (d : Dest)
  | sendDone
  | recvDone
  | close (d : Dest)
deriving DecidableEq

/-- One copy loop `cp(to, from)` (jobs.go:265-269): `io.Copy` until the
source's end of input, then `CloseWrite` (a half-close) on the
destination, then signal completion on the `done` channel. -/
def cpTrace (dst : Dest) : List PEv :=
  [.copyDone dst, .closeWrite dst, .sendDone]

/-- The handler after spawning both loops (jobs.go:270-275): receive both
completion signals, then return, running the deferred closes LIFO —
`conn.Close`, `attachConn.Close`, `client.Close`. -/
def joinTrace : List PEv :=
  [.recvDone, .recvDone, .close .conn, .close .attachConn, .close .client]

/-- Arbitrary interleaving of two sequences. -/
inductive Interleave : List α → List α → List α → Prop where
  | nil : Interleave [] [] []
  | left {x : α} {xs ys zs : List α} :
      Interleave xs ys zs → Interleave (x :: xs) ys (x :: zs)
  | right {y : α} {xs ys zs : List α} :
      Interleave xs ys zs → Interleave xs (y :: ys) (y :: zs)

def isSendDone : PEv → Bool
  | .sendDone => true
  | _ => false

def isRecvDone : PEv → Bool
  | .recvDone => true
  | _ => false

def isCloseEv : PEv → Bool
  | .close _ => true
  | _ => false

/-- Channel discipline of the 2-slot `done` channel: no prefix of the
schedule delivers more receives than completed sends. -/
def ChanOK (t : List PEv) : Prop :=
  ∀ p ∈ t.inits, List.countP isRecvDone p ≤ List.countP isSendDone p

instance (t : List PEv) : Decidable (ChanOK t) := by
  unfold ChanOK
  infer_instance

/-- Admissible schedules of the proxy phase: any channel-respecting
interleaving of the two copy loops with the joining handler. -/
def ProxySchedule (t : List PEv) : Prop :=
  ∃ ab, Interleave (cpTrace .conn) (cpTrace .attachConn) ab
    ∧ Interleave ab joinTrace t ∧ ChanOK t

lemma interleave_countP (p : α → Bool) {xs ys zs : List α}
    (h : Interleave xs ys zs) :
    zs.countP p = xs.countP p + ys.countP p := by
  induction h with
  | nil => simp
  | left h ih => simp only [List.countP_cons, ih]; omega
  | right h ih => simp only [List.countP_cons, ih]; omega

lemma interleave_sublist_left {xs ys zs : List α} (h : Interleave xs ys zs) :
    List.Sublist xs zs := by
  induction h with
  | nil => exact List.Sublist.refl []
  | left h ih => exact ih.cons₂ _
  | right h ih => exact ih.cons _

lemma interleave_sublist_right {xs ys zs : List α} (h : Interleave xs ys zs) :
    List.Sublist ys zs := by
  induction h with
  | nil => exact List.Sublist.refl []
  | left h ih => exact ih.cons _
  | right h ih => exact ih.cons₂ _

lemma interleave_mem {xs ys zs : List α} (h : Interleave xs ys zs) :
    ∀ a ∈ zs, a ∈ xs ∨ a ∈ ys := by
  induction h with
  | nil => simp
  | left h ih =>
    intro a ha
    rcases List.mem_cons.mp ha with rfl | ha
    · exact Or.inl (List.mem_cons_self _ _)
    · rcases ih a ha with h' | h'
      · exact Or.inl (List.mem_cons_of_mem _ h')
      · exact Or.inr h'
  | right h ih =>
    intro a ha
    rcases List.mem_cons.mp ha with rfl | ha
    · exact Or.inr (List.mem_cons_self _ _)
    · rcases ih a ha with h' | h'
      · exact Or.inl h'
      · exact Or.inr (List.mem_cons_of_mem _ h')

lemma interleave_append {xs ys zs z₁ z₂ : List α} (h : Interleave xs ys zs)
    (hz : zs = z₁ ++ z₂) :
    ∃ x₁ x₂ y₁ y₂, xs = x₁ ++ x₂ ∧ ys = y₁ ++ y₂ ∧ Interleave x₁ y₁ z₁ := by
  induction z₁ generalizing xs ys zs with
  | nil => exact ⟨[], xs, [], ys, rfl, rfl, Interleave.nil⟩
  | cons a z₁' ih =>
    subst hz
    rw [List.cons_append] at h
    cases h with
    | left h' =>
      obtain ⟨x₁, x₂, y₁, y₂, hx, hy, hI⟩ := ih h' rfl
      exact ⟨a :: x₁, x₂, y₁, y₂, by simp [hx], hy, Interleave.left hI⟩
    | right h' =>
      obtain ⟨x₁, x₂, y₁, y₂, hx, hy, hI⟩ := ih h' rfl
      exact ⟨x₁, x₂, a :: y₁, y₂, hx, by simp [hy], Interleave.right hI⟩

lemma interleave_append_self (xs ys : List α) : Interleave xs ys (xs ++ ys) := by
  induction xs with
  | nil =>
    induction ys with
    | nil => exact Interleave.nil
    | cons y ys ih => exact Interleave.right ih
  | cons x xs ih => exact Interleave.left ih

/-- C4: each copy loop half-closes (`CloseWrite`) its destination when its
source reaches end of input and never fully closes anything; and in every
admissible schedule of the proxy, by the time any full close happens, both
loops have already half-closed their destinations and signalled — and both
completion signals have been received — so the transport connection and
the attach channel are fully closed only after both copy loops finish. -/
theorem duplex_halfclose_and_join :
    (∀ d : Dest, PEv.closeWrite d ∈ cpTrace d
      ∧ ∀ d' : Dest, PEv.close d' ∉ cpTrace d)
    ∧ (∀ t, ProxySchedule t → ∀ p q d, t = p ++ PEv.close d :: q →
        PEv.closeWrite Dest.conn ∈ p ∧ PEv.closeWrite Dest.attachConn ∈ p
        ∧ List.countP isSendDone p = 2 ∧ List.countP isRecvDone p = 2) := by
  constructor
  · intro d
    refine ⟨by cases d <;> decide, ?_⟩
    intro d'
    cases d <;> cases d' <;> decide
  · rintro t ⟨ab, hab, hmain, hchan⟩ p q d ht
    have hp' : t = (p ++ [PEv.close d]) ++ q := by
      rw [ht, List.append_assoc]
      rfl
    have hcpA : List.countP isSendDone (cpTrace Dest.conn) = 1 := by decide
    have hcpB : List.countP isSendDone (cpTrace Dest.attachConn) = 1 := by decide
    have hcpAr : List.countP isRecvDone (cpTrace Dest.conn) = 0 := by decide
    have hcpBr : List.countP isRecvDone (cpTrace Dest.attachConn) = 0 := by decide
    have hjs : List.countP isSendDone joinTrace = 0 := by decide
    have hjr : List.countP isRecvDone joinTrace = 2 := by decide
    have habSend : List.countP isSendDone ab = 2 := by
      rw [interleave_countP isSendDone hab, hcpA, hcpB]
    have habRecv : List.countP isRecvDone ab = 0 := by
      rw [interleave_countP isRecvDone hab, hcpAr, hcpBr]
    have htSend : List.countP isSendDone t = 2 := by
      rw [interleave_countP isSendDone hmain, habSend, hjs]
    have htRecv : List.countP isRecvDone t = 2 := by
      rw [interleave_countP isRecvDone hmain, habRecv, hjr]
    obtain ⟨ab₁, ab₂, m₁, m₂, habSplit, hmSplit, hI1⟩ := interleave_append hmain hp'
    have hclosep : PEv.close d ∈ p ++ [PEv.close d] := by simp
    have hcloseCpA : ∀ a ∈ cpTrace Dest.conn, isCloseEv a = false := by decide
    have hcloseCpB : ∀ a ∈ cpTrace Dest.attachConn, isCloseEv a = false := by decide
    have hm₁close : PEv.close d ∈ m₁ := by
      rcases interleave_mem hI1 _ hclosep with h' | h'
      · exfalso
        have hmem : PEv.close d ∈ ab := by
          rw [habSplit]
          exact List.mem_append_left _ h'
        rcases interleave_mem hab _ hmem with h'' | h''
        · simpa [isCloseEv] using hcloseCpA _ h''
        · simpa [isCloseEv] using hcloseCpB _ h''
      · exact h'
    have hm₁pre : m₁ ∈ joinTrace.inits := (List.mem_inits m₁ joinTrace).mpr ⟨m₂, hmSplit.symm⟩
    have hm₁recv : List.countP isRecvDone m₁ = 2 := by
      have hjoin : ∀ m ∈ joinTrace.inits,
          0 < List.countP isCloseEv m → List.countP isRecvDone m = 2 := by decide
      refine hjoin m₁ hm₁pre (List.countP_pos_iff.mpr ⟨PEv.close d, hm₁close, rfl⟩)
    have hm₁send : List.countP isSendDone m₁ = 0 := by
      have hle := (List.IsPrefix.sublist ⟨m₂, hmSplit.symm⟩).countP_le isSendDone
      omega
    have hp'mem : (p ++ [PEv.close d]) ∈ t.inits := (List.mem_inits _ t).mpr ⟨q, hp'.symm⟩
    have hchanp := hchan _ hp'mem
    have hrecvP : List.countP isRecvDone (p ++ [PEv.close d])
        = List.countP isRecvDone ab₁ + 2 := by
      rw [interleave_countP isRecvDone hI1, hm₁recv]
    have hsendP : List.countP isSendDone (p ++ [PEv.close d])
        = List.countP isSendDone ab₁ := by
      rw [interleave_countP isSendDone hI1, hm₁send]
      omega
    have hab₁send : 2 ≤ List.countP isSendDone ab₁ := by omega
    obtain ⟨x₁, x₂, y₁, y₂, hxsplit, hysplit, hI2⟩ := interleave_append hab habSplit
    have hx1le : List.countP isSendDone x₁ ≤ 1 := by
      have hle := (List.IsPrefix.sublist ⟨x₂, hxsplit.symm⟩).countP_le isSendDone
      omega
    have hy1le : List.countP isSendDone y₁ ≤ 1 := by
      have hle := (List.IsPrefix.sublist ⟨y₂, hysplit.symm⟩).countP_le isSendDone
      omega
    have hab₁eq : List.countP isSendDone ab₁
        = List.countP isSendDone x₁ + List.countP isSendDone y₁ :=
      interleave_countP isSendDone hI2
    have hx1 : List.countP isSendDone x₁ = 1 := by omega
    have hy1 : List.countP isSendDone y₁ = 1 := by omega
    have hfactA : ∀ x ∈ (cpTrace Dest.conn).inits,
        List.countP isSendDone x = 1 → PEv.closeWrite Dest.conn ∈ x := by decide
    have hfactB : ∀ x ∈ (cpTrace Dest.attachConn).inits,
        List.countP isSendDone x = 1 → PEv.closeWrite Dest.attachConn ∈ x := by decide
    have hcwA : PEv.closeWrite Dest.conn ∈ x₁ :=
      hfactA x₁ ((List.mem_inits _ _).mpr ⟨x₂, hxsplit.symm⟩) hx1
    have hcwB : PEv.closeWrite Dest.attachConn ∈ y₁ :=
      hfactB y₁ ((List.mem_inits _ _).mpr ⟨y₂, hysplit.symm⟩) hy1
    have hsubx : List.Sublist x₁ ab₁ := interleave_sublist_left hI2
    have hsuby : List.Sublist y₁ ab₁ := interleave_sublist_right hI2
    have hsubab : List.Sublist ab₁ (p ++ [PEv.close d]) := interleave_sublist_left hI1
    have hmemp : ∀ a : PEv, a ∈ ab₁ → a ≠ PEv.close d → a ∈ p := by
      intro a ha hne
      rcases List.mem_append.mp (hsubab.subset ha) with h' | h'
      · exact h'
      · exact absurd (by simpa using h') hne
    have hcwAp : PEv.closeWrite Dest.conn ∈ p :=
      hmemp _ (hsubx.subset hcwA) (by simp)
    have hcwBp : PEv.closeWrite Dest.attachConn ∈ p :=
      hmemp _ (hsuby.subset hcwB) (by simp)
    have hple := (List.IsPrefix.sublist ⟨q, hp'.symm⟩).countP_le isSendDone
    have hpler := (List.IsPrefix.sublist ⟨q, hp'.symm⟩).countP_le isRecvDone
    have hpapp : List.countP isSendDone (p ++ [PEv.close d])
        = List.countP isSendDone p := by
      rw [List.countP_append]
      simp [isSendDone]
    have hpappr : List.countP isRecvDone (p ++ [PEv.close d])
        = List.countP isRecvDone p := by
      rw [List.countP_append]
      simp [isRecvDone]
    refine ⟨hcwAp, hcwBp, by omega, by omega⟩

/-- Witness for C4: the sequential schedule that runs both copy loops to
completion and then the joining handler is admissible, and at its first
full close both half-closes and both completion signals have happened. -/
theorem duplex_halfclose_and_join_witness :
    PEv.closeWrite Dest.conn
        ∈ cpTrace Dest.conn ++ (cpTrace Dest.attachConn ++ [PEv.recvDone, PEv.recvDone])
    ∧ PEv.closeWrite Dest.attachConn
        ∈ cpTrace Dest.conn ++ (cpTrace Dest.attachConn ++ [PEv.recvDone, PEv.recvDone])
    ∧ List.countP isSendDone
        (cpTrace Dest.conn ++ (cpTrace Dest.attachConn ++ [PEv.recvDone, PEv.recvDone])) = 2
    ∧ List.countP isRecvDone
        (cpTrace Dest.conn ++ (cpTrace Dest.attachConn ++ [PEv.recvDone, PEv.recvDone])) = 2 :=
  duplex_halfclose_and_join.2
    ((cpTrace Dest.conn ++ cpTrace Dest.attachConn) ++ joinTrace)
    ⟨cpTrace Dest.conn ++ cpTrace Dest.attachConn,
      interleave_append_self (cpTrace Dest.conn) (cpTrace Dest.attachConn),
      interleave_append_self (cpTrace Dest.conn ++ cpTrace Dest.attachConn) joinTrace,
      by decide⟩
    (cpTrace Dest.conn ++ (cpTrace Dest.attachConn ++ [PEv.recvDone, PEv.recvDone]))
    [PEv.close Dest.attachConn, PEv.close Dest.client] Dest.conn (by decide)

end FlynnJobs
